import Mathlib

/-
Verification of the idiokit client-side transport layer:
the DNS configuration store (idiokit/dns/_conf.py) and the HTTP/1.x
client protocol engine (idiokit/http/client.py), embedded shallowly.

Conventions of the embedding:
- Python dictionaries that map a key to a growing set of values are
  embedded as association lists (`Table`); set union becomes list append,
  so all set-level facts are stated through membership.
- Python functions that raise become `Except ClientError`-valued
  functions; the raised exception class is recorded in the error value.
- The IP literal collaborator (idiokit/dns/_iputils.parse_ip, not under
  src/) is an explicit parameter `ParseIp` of every definition that the
  source lets call it; `parseIPv4` below is a concrete instance used for
  evaluations.
-/

deriving instance DecidableEq for Except

/-- Errors raised by the embedded code: `requestError` stands for
client.RequestError, `valueError` for Python ValueError/TypeError, and
`connectionLost` for server.ConnectionLost. -/
inductive ClientError where
  | requestError (msg : String)
  | valueError (msg : String)
  | connectionLost
deriving DecidableEq, Repr

/- ---------------------------------------------------------------------
   IP literal parsing (external collaborator)
--------------------------------------------------------------------- -/

/-- The shape of the IP literal parser: a literal either fails to parse
(`none`, the Python ValueError) or yields (address-family, canonical string). -/
abbrev ParseIp := String → Option (Nat × String)

/-- Numeric value of a digit string (most significant first). -/
def digitsVal (cs : List Char) : Nat :=
  cs.foldl (fun a c => a * 10 + (c.toNat - 48)) 0

/-- Python str.lower() for the byte strings this code handles: ASCII
lower-casing, character by character. -/
def lowerStr (s : String) : String :=
  String.mk (s.toList.map Char.toLower)

/-- Split a character list at every separator character, keeping empty
segments (the semantics of Python str.split(sep)). -/
def splitChars (p : Char → Bool) : List Char → List (List Char)
  | [] => [[]]
  | c :: cs =>
      if p c then [] :: splitChars p cs
      else
        match splitChars p cs with
        | [] => [[c]]
        | l :: ls => (c :: l) :: ls

/-- Python str.strip(): drop leading and trailing whitespace. -/
def trimChars (cs : List Char) : List Char :=
  ((cs.dropWhile Char.isWhitespace).reverse.dropWhile Char.isWhitespace).reverse

/-- Decimal rendering of a dotted-quad component (a value below 1000). -/
def natToChars (n : Nat) : List Char :=
  if n < 10 then [Char.ofNat (48 + n)]
  else if n < 100 then [Char.ofNat (48 + n / 10), Char.ofNat (48 + n % 10)]
  else [Char.ofNat (48 + n / 100), Char.ofNat (48 + n / 10 % 10), Char.ofNat (48 + n % 10)]

/-- One dotted-quad component: nonempty, all digits, no leading zero
(except "0" itself), value at most 255. -/
def ipv4Part (cs : List Char) : Option Nat :=
  if cs ≠ [] ∧ cs.all Char.isDigit ∧ (cs = ['0'] ∨ cs.head? ≠ some '0') ∧
      digitsVal cs ≤ 255 then
    some (digitsVal cs)
  else
    none

/-- Modelled from the spec: parse_ip (idiokit/dns/_iputils.py, not under
src/) "classifies and normalizes an address literal into (address-family,
canonical-string)".  This concrete instance recognizes dotted-quad IPv4
literals (family 2 = AF_INET) and is used to instantiate the abstract
`ParseIp` parameter in concrete evaluations. -/
def parseIPv4 (s : String) : Option (Nat × String) :=
  match (splitChars (· == '.') s.toList).mapM ipv4Part with
  | some [a, b, c, d] =>
      some (2, String.mk (natToChars a ++ '.' :: natToChars b ++ '.' ::
        natToChars c ++ '.' :: natToChars d))
  | _ => none

/- ---------------------------------------------------------------------
   DNS configuration store (idiokit/dns/_conf.py)
--------------------------------------------------------------------- -/

/-- Python str.split() with no separator: split on whitespace runs,
dropping empty pieces. -/
def pythonWords (s : String) : List String :=
  ((splitChars Char.isWhitespace s.toList).filter (fun t => !t.isEmpty)).map String.mk

/-- `line[:line.find("#")]` when a comment marker is present, the whole
line otherwise (read_hosts, _conf.py lines 45-47). -/
def stripComment (line : String) : String :=
  String.mk (line.toList.takeWhile (· ≠ '#'))

/-- One line of read_hosts (_conf.py lines 44-62): strip the comment,
split on whitespace, require an IP token plus at least one name, skip the
line when the IP fails to parse, and yield the canonical IP together with
the per-line deduplicated, lower-cased names. -/
def hostsEntry (parseIp : ParseIp) (line : String) : Option (String × List String) :=
  match pythonWords (stripComment line) with
  | [] => none
  | ipTok :: rest =>
      if rest.isEmpty then none
      else
        match parseIp ipTok with
        | none => none
        | some (_, ip) => some (ip, (rest.dedup.map lowerStr))

/-- read_hosts (_conf.py lines 42-62) over a whole line sequence. -/
def read_hosts (parseIp : ParseIp) (lines : List String) : List (String × List String) :=
  lines.filterMap (hostsEntry parseIp)

/-- Embedding of a Python dict mapping a string key to a set of strings;
set semantics is recovered through membership in the value list. -/
abbrev Table := List (String × List String)

/-- Dictionary lookup. -/
def tableGet (t : Table) (k : String) : Option (List String) :=
  match t with
  | [] => none
  | (k2, v) :: rest => if k2 = k then some v else tableGet rest k

/-- `dict.setdefault(k, set()).update(vs)`: extend the value set of `k`,
creating the entry (at the end, matching dict insertion order) when absent. -/
def tableAdd (t : Table) (k : String) (vs : List String) : Table :=
  match t with
  | [] => [(k, vs)]
  | (k2, v) :: rest => if k2 = k then (k2, v ++ vs) :: rest else (k2, v) :: tableAdd rest k vs

/-- `v` is in the value set stored under `k`. -/
def memTable (t : Table) (k v : String) : Prop :=
  v ∈ (tableGet t k).getD []

instance (t : Table) (k v : String) : Decidable (memTable t k v) := by
  unfold memTable; infer_instance

/-- The ip → names accumulation of Hosts.from_lines (_conf.py lines 77-81). -/
def buildIps (entries : List (String × List String)) : Table :=
  entries.foldl (fun acc e => tableAdd acc e.1 e.2) []

/-- The derived name → ips index of Hosts.__init__ (_conf.py lines 83-91). -/
def buildNames (ips : Table) : Table :=
  ips.foldl (fun acc e => e.2.foldl (fun a n => tableAdd a n [e.1]) acc) []

/-- The Hosts table (_conf.py lines 75-110): the ip → names index and the
derived name → ips index. -/
structure Hosts where
  ips : Table
  names : Table
deriving DecidableEq, Repr

/-- Hosts.from_lines (_conf.py lines 76-81) followed by Hosts.__init__. -/
def Hosts.from_lines (parseIp : ParseIp) (lines : List String) : Hosts :=
  let ips := buildIps (read_hosts parseIp lines)
  { ips := ips, names := buildNames ips }

/-- Hosts.ip_to_names (_conf.py lines 93-96): the query IP is passed to
parse_ip first, whose ValueError on an invalid literal propagates. -/
def Hosts.ip_to_names (parseIp : ParseIp) (h : Hosts) (ip : String) :
    Except ClientError (List String) :=
  match parseIp ip with
  | none => Except.error (ClientError.valueError "invalid IP")
  | some (_, c) => Except.ok ((tableGet h.ips c).getD [])

/-- Hosts.name_to_ips (_conf.py lines 98-100): lower-case the query name
and look it up; there is no failing path, so the result is a plain list. -/
def Hosts.name_to_ips (h : Hosts) (name : String) : List String :=
  (tableGet h.names (lowerStr name)).getD []

/-- One line of read_resolv_conf (_conf.py lines 27-39): strip, skip
empty and comment lines, split into directive key and remainder (Python
split(None, 1)), skip single-token lines, and lower-case the key. -/
def resolvLine (line : String) : Option (String × String) :=
  match trimChars line.toList with
  | [] => none
  | c :: cs =>
      if c = '#' ∨ c = ';' then none
      else
        let t := c :: cs
        let tok := t.takeWhile (fun ch => !ch.isWhitespace)
        let rest := (t.dropWhile (fun ch => !ch.isWhitespace)).dropWhile Char.isWhitespace
        if rest.isEmpty then none
        else some (lowerStr (String.mk tok), String.mk rest)

/-- read_resolv_conf (_conf.py lines 27-39) over a whole line sequence. -/
def read_resolv_conf (lines : List String) : List (String × String) :=
  lines.filterMap resolvLine

/-- parse_server (_conf.py lines 13-24): parse_ip plus the fixed port 53. -/
def parse_server (parseIp : ParseIp) (server : String) : Option (Nat × String × Nat) :=
  match parseIp server with
  | none => none
  | some (family, ip) => some (family, ip, 53)

/-- The server list accumulated by ResolvConf.from_lines (_conf.py lines
115-128) before deduplication: nameserver directives whose value parses,
paired with port 53. -/
def rawServerEntry (parseIp : ParseIp) (kv : String × String) : Option (String × Nat) :=
  if kv.1 = "nameserver" then
    match parse_server parseIp kv.2 with
    | none => none
    | some (_, ip, port) => some (ip, port)
  else none

/-- The full pre-deduplication server list of ResolvConf.from_lines. -/
def rawServers (parseIp : ParseIp) (lines : List String) : List (String × Nat) :=
  (read_resolv_conf lines).filterMap (rawServerEntry parseIp)

/-- uniques (_conf.py lines 65-72): the generator keeps a seen-set and
yields each value on first sight only. -/
def uniquesAux {α : Type} [DecidableEq α] (seen : List α) : List α → List α
  | [] => []
  | x :: xs => if x ∈ seen then uniquesAux seen xs else x :: uniquesAux (x :: seen) xs

/-- The resolver configuration (_conf.py lines 113-136). -/
structure ResolvConf where
  servers : List (String × Nat)
deriving DecidableEq, Repr

/-- ResolvConf.from_lines followed by ResolvConf.__init__ (_conf.py lines
114-131): collect servers, then deduplicate. -/
def ResolvConf.from_lines (parseIp : ParseIp) (lines : List String) : ResolvConf :=
  { servers := uniquesAux [] (rawServers parseIp lines) }

/-- Modelled from the spec: the spec-side "duplicates removed while
preserving the order of first occurrence", written the canonical way: keep
the head, drop its later copies. Compared against `uniquesAux` from the
source. -/
def dedupFirst {α : Type} [DecidableEq α] : List α → List α
  | [] => []
  | x :: xs => x :: (dedupFirst xs).filter (fun y => decide (y ≠ x))

/- ---------------------------------------------------------------------
   Configuration loader (_conf.py lines 139-167)
--------------------------------------------------------------------- -/

/-- The filesystem boundary: a path either opens to its lines or fails
with IOError (`none`). -/
abbrev FileSystem := String → Option (List String)

/-- _Loader (_conf.py lines 139-159): the path, the bound from_lines
parser (`self._type.from_lines`), and the cached instance. -/
structure Loader (α : Type) where
  path : String
  fromLines : List String → α
  inst : Option α

/-- _Loader.load (_conf.py lines 146-159): return the cache when set;
otherwise open the path, degrade to from_lines([]) on IOError, parse,
and cache. The returned pair is (snapshot, updated loader state). -/
def Loader.load {α : Type} (l : Loader α) (fs : FileSystem) (forceReload : Bool) :
    α × Loader α :=
  match l.inst with
  | some c => (c, l)
  | none =>
      let c :=
        match fs l.path with
        | none => l.fromLines []
        | some lines => l.fromLines lines
      (c, { l with inst := some c })

/-- hosts (_conf.py lines 162-163): each call constructs a fresh loader. -/
def hosts (parseIp : ParseIp) (path : String := "/etc/hosts") : Loader Hosts :=
  { path := path, fromLines := Hosts.from_lines parseIp, inst := none }

/-- resolv_conf (_conf.py lines 166-167): each call constructs a fresh loader. -/
def resolv_conf (parseIp : ParseIp) (path : String := "/etc/resolv.conf") : Loader ResolvConf :=
  { path := path, fromLines := ResolvConf.from_lines parseIp, inst := none }

/- ---------------------------------------------------------------------
   HTTP versions (idiokit/http/httpversion.py, not under src/)
--------------------------------------------------------------------- -/

/-- An HTTP version, compared componentwise. -/
structure HTTPVersion where
  major : Nat
  minor : Nat
deriving DecidableEq, Repr

/-- The HTTP/1.0 constant. -/
def HTTP10 : HTTPVersion := { major := 1, minor := 0 }

/-- The HTTP/1.1 constant. -/
def HTTP11 : HTTPVersion := { major := 1, minor := 1 }

/-- Modelled from the spec: HTTPVersion.from_string
(idiokit/http/httpversion.py, not under src/) recognizes a version token
of the form HTTP/major.minor with numeric components; any other token is
unrecognized (the Python ValueError, here `none`). -/
def HTTPVersion.fromString (s : String) : Option HTTPVersion :=
  match s.toList with
  | 'H' :: 'T' :: 'T' :: 'P' :: '/' :: rest =>
      let ma := rest.takeWhile Char.isDigit
      match rest.dropWhile Char.isDigit with
      | '.' :: mi =>
          if !ma.isEmpty && !mi.isEmpty && mi.all Char.isDigit then
            some { major := digitsVal ma, minor := digitsVal mi }
          else none
      | _ => none
  | _ => none

/- ---------------------------------------------------------------------
   Response status line (client.py lines 23-39)
--------------------------------------------------------------------- -/

/-- A character allowed inside the reason phrase: anything but CR and LF. -/
def notCRLF (c : Char) : Bool :=
  c != '\r' && c != '\n'

/-- The line terminator accepted by the status-line pattern: CRLF, with a
bare LF tolerated. -/
def statusTailOk (cs : List Char) : Bool :=
  match cs with
  | ['\r', '\n'] => true
  | ['\n'] => true
  | _ => false

/-- The regular expression of read_status_line (client.py line 29),
anchored at both ends: a nonempty run of non-space characters, a space,
exactly three digits, a space, a reason free of CR/LF, and the
terminator.  Yields (version token, numeric code, reason). -/
def matchStatusLine (cs : List Char) : Option (List Char × Nat × List Char) :=
  let tok := cs.takeWhile (fun c => c != ' ')
  if tok.isEmpty then none
  else
    match cs.dropWhile (fun c => c != ' ') with
    | sp1 :: d1 :: d2 :: d3 :: sp2 :: rest2 =>
        if sp1 = ' ' ∧ d1.isDigit ∧ d2.isDigit ∧ d3.isDigit ∧ sp2 = ' ' then
          if statusTailOk (rest2.dropWhile notCRLF) then
            some (tok, (d1.toNat - 48) * 100 + (d2.toNat - 48) * 10 + (d3.toNat - 48),
              rest2.takeWhile notCRLF)
          else none
        else none
    | _ => none

/-- read_status_line (client.py lines 23-39): an empty line raises
ConnectionLost; a line that the pattern rejects raises
RequestError("could not parse status line"); a matching line whose
version token is unrecognized raises RequestError("invalid HTTP
version"); otherwise (version, int(code), reason) is produced. -/
def read_status_line (line : String) : Except ClientError (HTTPVersion × Nat × String) :=
  if line = "" then Except.error ClientError.connectionLost
  else
    match matchStatusLine line.toList with
    | none => Except.error (ClientError.requestError "could not parse status line")
    | some (tok, code, reason) =>
        match HTTPVersion.fromString (String.mk tok) with
        | none => Except.error (ClientError.requestError "invalid HTTP version")
        | some v => Except.ok (v, code, String.mk reason)

/- ---------------------------------------------------------------------
   Read-side framing (client.py lines 66-92)
--------------------------------------------------------------------- -/

/-- The response body reader selected by the framing resolver: `chunked`
stands for server._Chunked, `limited n` for server._Limited with bound
`n`, and `raw` for the untouched buffered stream (end-of-body at
connection close). -/
inductive Reader where
  | chunked
  | limited (n : Nat)
  | raw
deriving DecidableEq, Repr

/-- ClientResponse._resolve_reader_http10 (client.py lines 73-77): the
transfer-encoding header plays no part; a present content-length bounds
the reader, an absent one leaves the raw buffered stream. -/
def resolveReaderHttp10 (contentLength : Option Nat) : Reader :=
  match contentLength with
  | none => Reader.raw
  | some n => Reader.limited n

/-- ClientResponse._resolve_reader_http11 (client.py lines 79-92), given
the transfer-encoding header (`get_header_list`) and the parsed
content-length header (`get_content_length`), both external extraction
helpers from idiokit/http/server.py. -/
def resolveReaderHttp11 (transferEncoding : Option String) (contentLength : Option Nat) :
    Except ClientError Reader :=
  let te := transferEncoding.map lowerStr
  if te = some "chunked" then Except.ok Reader.chunked
  else if te = none ∨ te = some "identity" then
    match contentLength with
    | some n => Except.ok (Reader.limited n)
    | none => Except.ok Reader.raw
  else
    Except.error (ClientError.valueError
      "either content-length or transfer-encoding: chunked must be used")

/-- ClientResponse._resolve_reader (client.py lines 66-71): dispatch on
the HTTP version, raising RequestError for any version other than 1.0 and
1.1. -/
def resolveReader (v : HTTPVersion) (transferEncoding : Option String)
    (contentLength : Option Nat) : Except ClientError Reader :=
  if v = HTTP10 then Except.ok (resolveReaderHttp10 contentLength)
  else if v = HTTP11 then resolveReaderHttp11 transferEncoding contentLength
  else Except.error (ClientError.requestError "HTTP version not supported")

/- ---------------------------------------------------------------------
   Write-side framing (client.py lines 268-297)
--------------------------------------------------------------------- -/

/-- The request body writer selected by Client._resolve_headers:
`limited n` stands for server._LimitedWriter with bound `n`, `chunked`
for server._ChunkedWriter. -/
inductive BodyWriter where
  | limited (n : Nat)
  | chunked
deriving DecidableEq, Repr

/-- Modelled from the spec: _LimitedWriter.write (idiokit/http/server.py,
not under src/): the "writer is bounded to a fixed declared
content-length; writer fails if more bytes are written than declared".
State is the byte count written so far; a write of `n` further bytes
fails once the declared limit would be exceeded. -/
def limitedWriterWrite (limit written n : Nat) : Except ClientError Nat :=
  if limit < written + n then
    Except.error (ClientError.valueError "write limit exceeded")
  else
    Except.ok (written + n)

/-- Client._resolve_headers (client.py lines 268-297), given the method,
the connection header (`get_header_single` with default "close"), the
transfer-encoding header, the explicit content-length header and the
length of the literal body (`get_content_length(headers, len(data))`).
Yields the selected writer and the outgoing content-length header. -/
def resolveHeaders (method : String) (connection : Option String)
    (transferEncoding : Option String) (headerContentLength : Option Nat)
    (bodyLen : Nat) : Except ClientError (BodyWriter × Option Nat) :=
  let conn := connection.getD "close"
  if lowerStr conn ≠ "close" then
    Except.error (ClientError.valueError "unknown connection value")
  else
    let contentLength := headerContentLength.getD bodyLen
    let te := transferEncoding.map lowerStr
    if te ≠ none ∧ te ≠ some "identity" ∧ te ≠ some "chunked" then
      Except.error (ClientError.valueError "unknown transfer encoding")
    else if method = "HEAD" then
      if contentLength ≠ 0 then
        Except.error (ClientError.valueError "no content-length != 0 allowed for HEAD requests")
      else
        Except.ok (BodyWriter.limited 0, some 0)
    else if te = some "chunked" then
      Except.ok (BodyWriter.chunked, headerContentLength)
    else
      Except.ok (BodyWriter.limited contentLength, some contentLength)

/- ---------------------------------------------------------------------
   Scheme dispatch (client.py lines 216-257)
--------------------------------------------------------------------- -/

/-- The scheme handler classes: _HTTPScheme, _HTTPSScheme and the
unregistered _HTTPUnixScheme. -/
inductive SchemeHandler where
  | http
  | https
  | unix
deriving DecidableEq, Repr

/-- The scheme table lookup `self._schemes.get(parsed.scheme, None)`. -/
def lookupScheme : List (String × SchemeHandler) → String → Option SchemeHandler
  | [], _ => none
  | (k, h) :: rest, s => if k = s then some h else lookupScheme rest s

/-- The scheme table built by Client.__init__ (client.py lines 226-228):
exactly http and https are registered. -/
def defaultSchemes : List (String × SchemeHandler) :=
  [("http", SchemeHandler.http), ("https", SchemeHandler.https)]

/-- The prefix of Client.request (client.py lines 249-257) up to the
first network action: look the scheme up and raise ValueError when it is
unregistered; only a successful lookup reaches
`scheme_handler.connect`, so an error here is raised before any
connection attempt. -/
def requestDispatch (schemes : List (String × SchemeHandler)) (scheme : String) :
    Except ClientError SchemeHandler :=
  match lookupScheme schemes scheme with
  | none => Except.error (ClientError.valueError "unknown URI scheme")
  | some h => Except.ok h

/- ---------------------------------------------------------------------
   Claims
--------------------------------------------------------------------- -/

/-- C1: for every HTTP/1.1 response the read-side framing resolver picks
exactly one reader from the headers: a case-insensitively "chunked"
transfer-encoding (regardless of content-length) yields the
chunked-decoding reader; an absent or "identity" transfer-encoding with a
content-length yields a bounded reader of exactly that many bytes; an
absent or "identity" transfer-encoding without a content-length yields
the raw pass-through stream; any other transfer-encoding value fails with
the ambiguous-framing error. -/
theorem c1_resolve_reader_http11 :
    (∀ (s : String) (cl : Option Nat), lowerStr s = "chunked" →
        resolveReaderHttp11 (some s) cl = Except.ok Reader.chunked)
    ∧ (∀ (te : Option String) (n : Nat),
        (te = none ∨ ∃ s, te = some s ∧ lowerStr s = "identity") →
        resolveReaderHttp11 te (some n) = Except.ok (Reader.limited n))
    ∧ (∀ (te : Option String),
        (te = none ∨ ∃ s, te = some s ∧ lowerStr s = "identity") →
        resolveReaderHttp11 te none = Except.ok Reader.raw)
    ∧ (∀ (s : String) (cl : Option Nat), lowerStr s ≠ "chunked" → lowerStr s ≠ "identity" →
        resolveReaderHttp11 (some s) cl =
          Except.error (ClientError.valueError
            "either content-length or transfer-encoding: chunked must be used")) := by
  refine ⟨?_, ?_, ?_, ?_⟩
  · intro s cl h
    simp [resolveReaderHttp11, h]
  · rintro te n (rfl | ⟨s, rfl, h⟩)
    · simp [resolveReaderHttp11]
    · simp [resolveReaderHttp11, h]
  · rintro te (rfl | ⟨s, rfl, h⟩)
    · simp [resolveReaderHttp11]
    · simp [resolveReaderHttp11, h]
  · intro s cl h1 h2
    simp [resolveReaderHttp11, h1, h2]

/-- C1 witness: the four branches evaluated at concrete headers. -/
theorem c1_resolve_reader_http11_witness :
    resolveReaderHttp11 (some "Chunked") (some 5) = Except.ok Reader.chunked
    ∧ resolveReaderHttp11 (some "Identity") (some 7) = Except.ok (Reader.limited 7)
    ∧ resolveReaderHttp11 none none = Except.ok Reader.raw
    ∧ resolveReaderHttp11 (some "gzip") none =
        Except.error (ClientError.valueError
          "either content-length or transfer-encoding: chunked must be used") :=
  ⟨c1_resolve_reader_http11.1 "Chunked" (some 5) (by decide),
   c1_resolve_reader_http11.2.1 (some "Identity") 7 (Or.inr ⟨"Identity", rfl, by decide⟩),
   c1_resolve_reader_http11.2.2.1 none (Or.inl rfl),
   c1_resolve_reader_http11.2.2.2 "gzip" none (by decide) (by decide)⟩

/-- C2: for every HTTP/1.0 response the read-side framing resolver
ignores transfer-encoding (the resolver is constant in it): a present
content-length yields a bounded reader of exactly that many bytes, an
absent one yields the reader that treats connection close as end-of-body
(the raw buffered stream); every version other than 1.0 and 1.1 makes
response construction fail with the unsupported-version error. -/
theorem c2_resolve_reader_http10 :
    (∀ (te : Option String) (n : Nat),
        resolveReader HTTP10 te (some n) = Except.ok (Reader.limited n))
    ∧ (∀ (te : Option String), resolveReader HTTP10 te none = Except.ok Reader.raw)
    ∧ (∀ (v : HTTPVersion) (te : Option String) (cl : Option Nat),
        v ≠ HTTP10 → v ≠ HTTP11 →
        resolveReader v te cl =
          Except.error (ClientError.requestError "HTTP version not supported")) := by
  refine ⟨?_, ?_, ?_⟩
  · intro te n; simp [resolveReader, resolveReaderHttp10]
  · intro te; simp [resolveReader, resolveReaderHttp10]
  · intro v te cl h10 h11; simp [resolveReader, h10, h11]

/-- C2 witness: HTTP/1.0 with and without content-length, and HTTP/2.0. -/
theorem c2_resolve_reader_http10_witness :
    resolveReader HTTP10 (some "chunked") (some 4) = Except.ok (Reader.limited 4)
    ∧ resolveReader HTTP10 (some "chunked") none = Except.ok Reader.raw
    ∧ resolveReader { major := 2, minor := 0 } none none =
        Except.error (ClientError.requestError "HTTP version not supported") :=
  ⟨c2_resolve_reader_http10.1 (some "chunked") 4,
   c2_resolve_reader_http10.2.1 (some "chunked"),
   c2_resolve_reader_http10.2.2 { major := 2, minor := 0 } none none (by decide) (by decide)⟩

/-- C7: for a HEAD request (with the connection and transfer-encoding
headers otherwise acceptable) header resolution fails when the effective
content-length (explicit header, or body length when absent) is nonzero;
otherwise it selects the writer bounded to zero bytes and forces the
outgoing content-length header to 0; the zero-bounded writer rejects any
non-empty write. -/
theorem c7_resolve_headers_head (connection te : Option String) (hcl : Option Nat)
    (bodyLen : Nat)
    (hconn : lowerStr (connection.getD "close") = "close")
    (hte : te.map lowerStr = none ∨ te.map lowerStr = some "identity"
            ∨ te.map lowerStr = some "chunked") :
    (hcl.getD bodyLen ≠ 0 → resolveHeaders "HEAD" connection te hcl bodyLen =
        Except.error (ClientError.valueError "no content-length != 0 allowed for HEAD requests"))
    ∧ (hcl.getD bodyLen = 0 → resolveHeaders "HEAD" connection te hcl bodyLen =
        Except.ok (BodyWriter.limited 0, some 0))
    ∧ (∀ n, 0 < n → limitedWriterWrite 0 0 n =
        Except.error (ClientError.valueError "write limit exceeded")) := by
  refine ⟨?_, ?_, ?_⟩
  · intro hne; rcases hte with h | h | h <;> simp [resolveHeaders, hconn, h, hne]
  · intro heq; rcases hte with h | h | h <;> simp [resolveHeaders, hconn, h, heq]
  · intro n hn
    simp only [limitedWriterWrite, Nat.zero_add]
    rw [if_pos hn]

/-- C7 witness: HEAD with a 5-byte body fails, HEAD with an empty body
selects the zero-bounded writer and content-length 0, and that writer
rejects a 3-byte write. -/
theorem c7_resolve_headers_head_witness :
    resolveHeaders "HEAD" none none none 5 =
        Except.error (ClientError.valueError "no content-length != 0 allowed for HEAD requests")
    ∧ resolveHeaders "HEAD" none none none 0 = Except.ok (BodyWriter.limited 0, some 0)
    ∧ limitedWriterWrite 0 0 3 = Except.error (ClientError.valueError "write limit exceeded") :=
  ⟨(c7_resolve_headers_head none none none 5 (by decide) (Or.inl rfl)).1 (by decide),
   (c7_resolve_headers_head none none none 0 (by decide) (Or.inl rfl)).2.1 rfl,
   (c7_resolve_headers_head none none none 0 (by decide) (Or.inl rfl)).2.2 3 (by decide)⟩

/-- C8 counterexample: the claim "when transfer-encoding is chunked the
chunked writer is selected" fails for the method HEAD: for a HEAD request
with transfer-encoding: chunked and an empty body, header resolution
succeeds but selects the zero-bounded writer, not the chunked writer. -/
theorem c8_counterexample_head_chunked :
    resolveHeaders "HEAD" none (some "chunked") none 0 =
        Except.ok (BodyWriter.limited 0, some 0)
    ∧ BodyWriter.limited 0 ≠ BodyWriter.chunked := by
  exact ⟨by decide, by decide⟩

/-- C8 (amended): for every request, header resolution fails fast — for
all methods and content-lengths alike, hence before any body writer is
selected — when the transfer-encoding header has a value other than
"identity" or "chunked" case-insensitively, and fails when the connection
header has a value other than "close" case-insensitively (an absent
connection header defaults to "close" and is accepted, as the later
conjuncts instantiated with an absent header show); for non-HEAD methods,
when transfer-encoding is "chunked" the chunked writer is selected,
otherwise a bounded writer with the declared content-length. -/
theorem c8_resolve_headers :
    (∀ (method : String) (connection : Option String) (s : String) (hcl : Option Nat)
        (bodyLen : Nat),
        lowerStr (connection.getD "close") = "close" →
        lowerStr s ≠ "identity" → lowerStr s ≠ "chunked" →
        resolveHeaders method connection (some s) hcl bodyLen =
          Except.error (ClientError.valueError "unknown transfer encoding"))
    ∧ (∀ (method : String) (c : String) (te : Option String) (hcl : Option Nat)
        (bodyLen : Nat),
        lowerStr c ≠ "close" →
        resolveHeaders method (some c) te hcl bodyLen =
          Except.error (ClientError.valueError "unknown connection value"))
    ∧ (∀ (method : String) (connection : Option String) (s : String) (hcl : Option Nat)
        (bodyLen : Nat),
        method ≠ "HEAD" → lowerStr (connection.getD "close") = "close" →
        lowerStr s = "chunked" →
        resolveHeaders method connection (some s) hcl bodyLen =
          Except.ok (BodyWriter.chunked, hcl))
    ∧ (∀ (method : String) (connection : Option String) (te : Option String)
        (hcl : Option Nat) (bodyLen : Nat),
        method ≠ "HEAD" → lowerStr (connection.getD "close") = "close" →
        (te = none ∨ ∃ s, te = some s ∧ lowerStr s = "identity") →
        resolveHeaders method connection te hcl bodyLen =
          Except.ok (BodyWriter.limited (hcl.getD bodyLen), some (hcl.getD bodyLen))) := by
  refine ⟨?_, ?_, ?_, ?_⟩
  · intro method connection s hcl bodyLen hconn h1 h2
    simp [resolveHeaders, hconn, h1, h2]
  · intro method c te hcl bodyLen hconn
    simp [resolveHeaders, hconn]
  · intro method connection s hcl bodyLen hm hconn hs
    simp [resolveHeaders, hconn, hs, hm]
  · rintro method connection te hcl bodyLen hm hconn (rfl | ⟨s, rfl, hs⟩)
    · simp [resolveHeaders, hconn, hm]
    · simp [resolveHeaders, hconn, hs, hm]

/-- C8 witness: the amended conjuncts at concrete headers — a gzip
transfer-encoding fails even for HEAD, a keep-alive connection fails, a
chunked GET selects the chunked writer with the connection header left to
its default, and a plain GET selects the bounded writer with the body
length. -/
theorem c8_resolve_headers_witness :
    resolveHeaders "HEAD" none (some "gzip") none 0 =
        Except.error (ClientError.valueError "unknown transfer encoding")
    ∧ resolveHeaders "GET" (some "keep-alive") none none 0 =
        Except.error (ClientError.valueError "unknown connection value")
    ∧ resolveHeaders "GET" none (some "Chunked") none 4 =
        Except.ok (BodyWriter.chunked, none)
    ∧ resolveHeaders "GET" none none none 5 =
        Except.ok (BodyWriter.limited 5, some 5) :=
  ⟨c8_resolve_headers.1 "HEAD" none "gzip" none 0 (by decide) (by decide) (by decide),
   c8_resolve_headers.2.1 "GET" "keep-alive" none none 0 (by decide),
   c8_resolve_headers.2.2.1 "GET" none "Chunked" none 4 (by decide) (by decide) (by decide),
   c8_resolve_headers.2.2.2 "GET" none none none 5 (by decide) (by decide) (Or.inl rfl)⟩

/-- C9: a default-constructed Client registers handlers for exactly the
schemes "http" and "https" (the local-domain-socket handler is never
registered), and request() on a URL with any other scheme raises the
unknown-scheme ValueError from the dispatch prefix, before any connection
attempt (the success value carrying the handler whose connect would run
is never produced). -/
theorem c9_default_schemes :
    defaultSchemes.map Prod.fst = ["http", "https"]
    ∧ lookupScheme defaultSchemes "http" = some SchemeHandler.http
    ∧ lookupScheme defaultSchemes "https" = some SchemeHandler.https
    ∧ (∀ s, lookupScheme defaultSchemes s ≠ some SchemeHandler.unix)
    ∧ (∀ s, s ≠ "http" → s ≠ "https" →
        requestDispatch defaultSchemes s =
          Except.error (ClientError.valueError "unknown URI scheme")) := by
  refine ⟨rfl, rfl, rfl, ?_, ?_⟩
  · intro s
    simp only [defaultSchemes, lookupScheme]
    split
    · simp
    · split <;> simp
  · intro s h1 h2
    simp [requestDispatch, defaultSchemes, lookupScheme, Ne.symm h1, Ne.symm h2]

/-- C9 witness: the scheme table facts, and the dispatch failure at the
concrete unregistered schemes "ftp" and "unix". -/
theorem c9_default_schemes_witness :
    (∀ s, lookupScheme defaultSchemes s ≠ some SchemeHandler.unix)
    ∧ requestDispatch defaultSchemes "ftp" =
        Except.error (ClientError.valueError "unknown URI scheme")
    ∧ requestDispatch defaultSchemes "unix" =
        Except.error (ClientError.valueError "unknown URI scheme") :=
  ⟨c9_default_schemes.2.2.2.1,
   c9_default_schemes.2.2.2.2 "ftp" (by decide) (by decide),
   c9_default_schemes.2.2.2.2 "unix" (by decide) (by decide)⟩

/-- C10: ip_to_names raises ValueError (rather than returning an empty
sequence) on every query string that parse_ip rejects, and never raises
on a syntactically valid IP literal; name_to_ips has no failing path at
all, which the embedding records by giving it a plain list type. -/
theorem c10_ip_to_names_invalid (parseIp : ParseIp) (h : Hosts) (q : String) :
    (parseIp q = none →
        Hosts.ip_to_names parseIp h q = Except.error (ClientError.valueError "invalid IP"))
    ∧ (∀ f c, parseIp q = some (f, c) →
        Hosts.ip_to_names parseIp h q = Except.ok ((tableGet h.ips c).getD [])) := by
  constructor
  · intro hq; simp [Hosts.ip_to_names, hq]
  · intro f c hq; simp [Hosts.ip_to_names, hq]

/-- C10 witness: on the empty table, the query "not-an-ip" raises while
the valid but unknown "192.0.2.9" returns the empty sequence. -/
theorem c10_ip_to_names_invalid_witness :
    Hosts.ip_to_names parseIPv4 (Hosts.from_lines parseIPv4 []) "not-an-ip" =
        Except.error (ClientError.valueError "invalid IP")
    ∧ Hosts.ip_to_names parseIPv4 (Hosts.from_lines parseIPv4 []) "192.0.2.9" =
        Except.ok [] :=
  ⟨(c10_ip_to_names_invalid parseIPv4 (Hosts.from_lines parseIPv4 []) "not-an-ip").1
      (by decide),
   (c10_ip_to_names_invalid parseIPv4 (Hosts.from_lines parseIPv4 []) "192.0.2.9").2
      2 "192.0.2.9" (by decide)⟩

/-- C5 counterexample: the cache is not process-wide per path — each call
to hosts() builds a fresh loader with its own empty cache, so two loaders
for the same path can observe different file contents; under a
process-wide per-path cache the second load would have returned the first
snapshot. -/
theorem c5_counterexample_not_process_wide :
    ((hosts parseIPv4 "/etc/hosts").load (fun _ => some ["192.0.2.1 alpha"]) false).1 ≠
    ((hosts parseIPv4 "/etc/hosts").load (fun _ => some ["192.0.2.2 beta"]) false).1 := by
  decide

/-- C5 (amended): load() on a missing or unreadable file returns the
empty (but valid) configuration from_lines([]) and never raises (the
embedded load is total); the configuration is parsed and cached on the
first load() call; every subsequent load() call returns the same cached
snapshot without re-reading the file (the filesystem and flag arguments
of the second call are arbitrary); and force_reload=true has no effect;
the cache lives in the individual loader object returned by
hosts()/resolv_conf(), not in a process-wide per-path table. -/
theorem c5_loader_cache {α : Type} (l : Loader α) (fs fs2 : FileSystem) (fr fr2 : Bool) :
    (l.inst = none → fs l.path = none → (l.load fs fr).1 = l.fromLines [])
    ∧ ((l.load fs fr).2.load fs2 fr2 = ((l.load fs fr).1, (l.load fs fr).2))
    ∧ (l.load fs true = l.load fs false) := by
  refine ⟨?_, ?_, ?_⟩
  · intro hinst hfs
    simp [Loader.load, hinst, hfs]
  · cases h : l.inst with
    | some c => simp [Loader.load, h]
    | none => simp [Loader.load, h]
  · rfl

/-- C5 witness: a loader over a missing /etc/hosts yields the empty
hosts table, a second load through a changed filesystem still returns
the first snapshot, and the force flag changes nothing. -/
theorem c5_loader_cache_witness :
    ((hosts parseIPv4 "/etc/hosts").load (fun _ => none) false).1 =
        Hosts.from_lines parseIPv4 []
    ∧ (((hosts parseIPv4 "/etc/hosts").load (fun _ => none) false).2.load
          (fun _ => some ["192.0.2.1 alpha"]) true =
        (((hosts parseIPv4 "/etc/hosts").load (fun _ => none) false).1,
         ((hosts parseIPv4 "/etc/hosts").load (fun _ => none) false).2))
    ∧ ((hosts parseIPv4 "/etc/hosts").load (fun _ => none) true =
        (hosts parseIPv4 "/etc/hosts").load (fun _ => none) false) :=
  ⟨(c5_loader_cache (hosts parseIPv4 "/etc/hosts") (fun _ => none)
      (fun _ => some ["192.0.2.1 alpha"]) false true).1 rfl rfl,
   (c5_loader_cache (hosts parseIPv4 "/etc/hosts") (fun _ => none)
      (fun _ => some ["192.0.2.1 alpha"]) false true).2.1,
   (c5_loader_cache (hosts parseIPv4 "/etc/hosts") (fun _ => none)
      (fun _ => some ["192.0.2.1 alpha"]) true true).2.2⟩

/- ---------------------------------------------------------------------
   Helper lemmas: first-occurrence deduplication
--------------------------------------------------------------------- -/

theorem mem_dedupFirst {α : Type} [DecidableEq α] (a : α) (l : List α) :
    a ∈ dedupFirst l ↔ a ∈ l := by
  induction l with
  | nil => simp [dedupFirst]
  | cons x xs ih =>
    by_cases h : a = x
    · subst h; simp [dedupFirst]
    · simp [dedupFirst, List.mem_filter, ih, h]

theorem nodup_dedupFirst {α : Type} [DecidableEq α] (l : List α) :
    (dedupFirst l).Nodup := by
  induction l with
  | nil => simp [dedupFirst]
  | cons x xs ih =>
    rw [dedupFirst, List.nodup_cons]
    constructor
    · intro hmem
      rcases List.mem_filter.mp hmem with ⟨-, hx⟩
      simp at hx
    · exact ih.filter _

theorem dedupFirst_filter {α : Type} [DecidableEq α] (x : α) (l : List α) :
    dedupFirst (l.filter (fun y => decide (y ≠ x))) =
      (dedupFirst l).filter (fun y => decide (y ≠ x)) := by
  induction l with
  | nil => rfl
  | cons y ys ih =>
    by_cases h : y = x
    · subst h
      rw [List.filter_cons, if_neg (by simp)]
      simp only [dedupFirst]
      rw [List.filter_cons, if_neg (by simp), ih, List.filter_filter]
      apply List.filter_congr
      intro a _
      exact (Bool.and_self _).symm
    · rw [List.filter_cons, if_pos (by simp [h])]
      simp only [dedupFirst]
      rw [ih, List.filter_cons, if_pos (by simp [h])]
      congr 1
      exact List.filter_comm _ _ _

theorem uniquesAux_eq_dedupFirst {α : Type} [DecidableEq α] (l : List α) (seen : List α) :
    uniquesAux seen l = dedupFirst (l.filter (fun x => decide (x ∉ seen))) := by
  induction l generalizing seen with
  | nil => rfl
  | cons x xs ih =>
    by_cases h : x ∈ seen
    · simp only [uniquesAux, if_pos h, List.filter_cons]
      rw [if_neg (by simp [h]), ih]
    · have hp : ∀ y : α, decide (y ∉ x :: seen) =
          (decide (y ∉ seen) && decide (y ≠ x)) := by
        intro y
        by_cases h1 : y = x <;> by_cases h2 : y ∈ seen <;> simp [h1, h2]
      simp only [uniquesAux, if_neg h, List.filter_cons]
      rw [if_pos (by simp [h]), ih]
      simp only [dedupFirst]
      congr 1
      rw [← dedupFirst_filter]
      congr 1
      rw [List.filter_filter]
      apply List.filter_congr
      intro a _
      rw [hp a, Bool.and_comm]

theorem rawServerEntry_eq_some (parseIp : ParseIp) (kv : String × String) (ip : String)
    (port : Nat) :
    rawServerEntry parseIp kv = some (ip, port) ↔
      (kv.1 = "nameserver" ∧ port = 53 ∧ ∃ f, parseIp kv.2 = some (f, ip)) := by
  by_cases hk : kv.1 = "nameserver"
  · cases hparse : parseIp kv.2 with
    | none => simp [rawServerEntry, parse_server, hk, hparse]
    | some fi =>
        obtain ⟨f, ip0⟩ := fi
        simp only [rawServerEntry, parse_server, hk, if_true, hparse, Option.some.injEq,
          Prod.mk.injEq, true_and]
        constructor
        · rintro ⟨rfl, rfl⟩
          exact ⟨rfl, f, rfl, rfl⟩
        · rintro ⟨rfl, f2, hf⟩
          obtain ⟨-, rfl⟩ := hf
          exact ⟨rfl, rfl⟩
  · simp [rawServerEntry, hk]

/-- C4: the resolv.conf server list is exactly the parseable values of
nameserver directives (directive keys having been lower-cased by the line
reader), each paired with the fixed port 53, unparseable values silently
skipped, with duplicates removed preserving the order of first occurrence
(the list equals the canonical first-occurrence deduplication of the raw
directive list, and so holds each distinct pair exactly once). -/
theorem c4_resolv_conf_servers (parseIp : ParseIp) (lines : List String) :
    (ResolvConf.from_lines parseIp lines).servers = dedupFirst (rawServers parseIp lines)
    ∧ (ResolvConf.from_lines parseIp lines).servers.Nodup
    ∧ (∀ ip port, (ip, port) ∈ (ResolvConf.from_lines parseIp lines).servers ↔
        (port = 53 ∧ ∃ value f, ("nameserver", value) ∈ read_resolv_conf lines ∧
          parseIp value = some (f, ip))) := by
  have heq : (ResolvConf.from_lines parseIp lines).servers =
      dedupFirst (rawServers parseIp lines) := by
    show uniquesAux [] (rawServers parseIp lines) = _
    rw [uniquesAux_eq_dedupFirst]
    congr 1
    apply List.filter_eq_self.mpr
    intro a _
    simp
  refine ⟨heq, ?_, ?_⟩
  · rw [heq]; exact nodup_dedupFirst _
  · intro ip port
    rw [heq, mem_dedupFirst]
    unfold rawServers
    rw [List.mem_filterMap]
    constructor
    · rintro ⟨⟨key, value⟩, hmem, hsome⟩
      rw [rawServerEntry_eq_some] at hsome
      obtain ⟨hkey, hport, f, hparse⟩ := hsome
      subst hkey
      exact ⟨hport, value, f, hmem, hparse⟩
    · rintro ⟨hport, value, fam, hmem, hparse⟩
      subst hport
      refine ⟨("nameserver", value), hmem, ?_⟩
      rw [rawServerEntry_eq_some]
      exact ⟨rfl, rfl, fam, hparse⟩

/-- C4 witness: the membership characterization instantiated at a
concrete input with a case-varied directive key, a repeated line and a
non-parsing value. -/
theorem c4_resolv_conf_servers_witness :
    (ResolvConf.from_lines parseIPv4
        ["NameServer 192.0.2.1", "nameserver 192.0.2.1",
         "nameserver bad", "nameserver 192.0.2.2"]).servers =
      [("192.0.2.1", 53), ("192.0.2.2", 53)]
    ∧ (("192.0.2.1", 53) ∈ (ResolvConf.from_lines parseIPv4
        ["NameServer 192.0.2.1", "nameserver 192.0.2.1",
         "nameserver bad", "nameserver 192.0.2.2"]).servers ↔
        ((53 : Nat) = 53 ∧ ∃ value f,
          ("nameserver", value) ∈ read_resolv_conf
            ["NameServer 192.0.2.1", "nameserver 192.0.2.1",
             "nameserver bad", "nameserver 192.0.2.2"] ∧
          parseIPv4 value = some (f, "192.0.2.1"))) :=
  ⟨by decide,
   (c4_resolv_conf_servers parseIPv4
      ["NameServer 192.0.2.1", "nameserver 192.0.2.1",
       "nameserver bad", "nameserver 192.0.2.2"]).2.2 "192.0.2.1" 53⟩

/- ---------------------------------------------------------------------
   Helper lemmas: association tables
--------------------------------------------------------------------- -/

theorem tableGet_tableAdd_eq (t : Table) (k : String) (vs : List String) :
    tableGet (tableAdd t k vs) k = some ((tableGet t k).getD [] ++ vs) := by
  induction t with
  | nil => simp [tableAdd, tableGet]
  | cons e rest ih =>
    obtain ⟨k2, v⟩ := e
    by_cases h : k2 = k
    · subst h
      simp [tableAdd, tableGet]
    · simp [tableAdd, tableGet, h, ih]

theorem tableGet_tableAdd_ne (t : Table) (ka k : String) (vs : List String) (h : ka ≠ k) :
    tableGet (tableAdd t ka vs) k = tableGet t k := by
  induction t with
  | nil => simp [tableAdd, tableGet, h]
  | cons e rest ih =>
    obtain ⟨k2, v⟩ := e
    by_cases h2 : k2 = ka
    · subst h2
      simp [tableAdd, tableGet, h]
    · simp [tableAdd, tableGet, h2, ih]

theorem memTable_tableAdd_iff (t : Table) (ka k v : String) (vs : List String) :
    memTable (tableAdd t ka vs) k v ↔ memTable t k v ∨ (k = ka ∧ v ∈ vs) := by
  by_cases h : k = ka
  · subst h
    unfold memTable
    rw [tableGet_tableAdd_eq]
    cases hg : tableGet t k <;> simp [hg]
  · unfold memTable
    rw [tableGet_tableAdd_ne t ka k vs (Ne.symm h)]
    simp [h]

theorem memTable_buildIps_aux (entries : List (String × List String)) (t : Table)
    (k v : String) :
    memTable (entries.foldl (fun acc e => tableAdd acc e.1 e.2) t) k v ↔
      memTable t k v ∨ ∃ vs, (k, vs) ∈ entries ∧ v ∈ vs := by
  induction entries generalizing t with
  | nil => simp
  | cons e rest ih =>
    obtain ⟨ke, vse⟩ := e
    rw [List.foldl_cons, ih, memTable_tableAdd_iff]
    simp only [List.mem_cons, Prod.mk.injEq]
    constructor
    · rintro ((hm | ⟨rfl, hv⟩) | ⟨vs, hmem, hv⟩)
      · exact Or.inl hm
      · exact Or.inr ⟨vse, Or.inl ⟨rfl, rfl⟩, hv⟩
      · exact Or.inr ⟨vs, Or.inr hmem, hv⟩
    · rintro (hm | ⟨vs, (⟨rfl, rfl⟩ | hmem), hv⟩)
      · exact Or.inl (Or.inl hm)
      · exact Or.inl (Or.inr ⟨rfl, hv⟩)
      · exact Or.inr ⟨vs, hmem, hv⟩

theorem memTable_innerFold_iff (ns : List String) (ip : String) (t : Table) (k v : String) :
    memTable (ns.foldl (fun a n => tableAdd a n [ip]) t) k v ↔
      memTable t k v ∨ (k ∈ ns ∧ v = ip) := by
  induction ns generalizing t with
  | nil => simp
  | cons n rest ih =>
    rw [List.foldl_cons, ih, memTable_tableAdd_iff]
    simp only [List.mem_cons, List.not_mem_nil, or_false]
    constructor
    · rintro ((hm | ⟨rfl, rfl⟩) | ⟨hk, rfl⟩)
      · exact Or.inl hm
      · exact Or.inr ⟨Or.inl rfl, rfl⟩
      · exact Or.inr ⟨Or.inr hk, rfl⟩
    · rintro (hm | ⟨(rfl | hk), rfl⟩)
      · exact Or.inl (Or.inl hm)
      · exact Or.inl (Or.inr ⟨rfl, rfl⟩)
      · exact Or.inr ⟨hk, rfl⟩

theorem memTable_buildNames_aux (ips : Table) (t : Table) (k v : String) :
    memTable (ips.foldl (fun acc e => e.2.foldl (fun a n => tableAdd a n [e.1]) acc) t) k v ↔
      memTable t k v ∨ ∃ e, e ∈ ips ∧ k ∈ e.2 ∧ v = e.1 := by
  induction ips generalizing t with
  | nil => simp
  | cons e rest ih =>
    rw [List.foldl_cons, ih, memTable_innerFold_iff]
    simp only [List.mem_cons]
    constructor
    · rintro ((hm | ⟨hk, rfl⟩) | ⟨e2, hmem, hk, rfl⟩)
      · exact Or.inl hm
      · exact Or.inr ⟨e, Or.inl rfl, hk, rfl⟩
      · exact Or.inr ⟨e2, Or.inr hmem, hk, rfl⟩
    · rintro (hm | ⟨e2, (rfl | hmem), hk, rfl⟩)
      · exact Or.inl (Or.inl hm)
      · exact Or.inl (Or.inr ⟨hk, rfl⟩)
      · exact Or.inr ⟨e2, hmem, hk, rfl⟩

theorem memTable_nil (k v : String) : ¬ memTable [] k v := by
  simp [memTable, tableGet]

theorem mem_of_tableGet (t : Table) (k : String) (l : List String)
    (hg : tableGet t k = some l) : (k, l) ∈ t := by
  induction t with
  | nil => cases hg
  | cons e rest ih =>
    obtain ⟨ke, ve⟩ := e
    by_cases h : ke = k
    · subst h
      simp only [tableGet, if_pos rfl] at hg
      injection hg with h2
      subst h2
      exact List.mem_cons_self _ _
    · simp only [tableGet, if_neg h] at hg
      exact List.mem_cons_of_mem _ (ih hg)

/-- Key distinctness of the tables built by the folds. -/
def keysNodup (t : Table) : Prop :=
  (t.map Prod.fst).Nodup

theorem mem_keys_tableAdd (t : Table) (ka k : String) (vs : List String) :
    k ∈ (tableAdd t ka vs).map Prod.fst ↔ k ∈ t.map Prod.fst ∨ k = ka := by
  induction t with
  | nil => simp [tableAdd]
  | cons e rest ih =>
    obtain ⟨ke, ve⟩ := e
    by_cases h : ke = ka
    · subst h
      rw [show tableAdd ((ke, ve) :: rest) ke vs = (ke, ve ++ vs) :: rest from by
        simp [tableAdd]]
      simp only [List.map_cons, List.mem_cons]
      tauto
    · rw [show tableAdd ((ke, ve) :: rest) ka vs = (ke, ve) :: tableAdd rest ka vs from by
        simp [tableAdd, h]]
      simp only [List.map_cons, List.mem_cons, ih]
      tauto

theorem keysNodup_tableAdd (t : Table) (ka : String) (vs : List String)
    (h : keysNodup t) : keysNodup (tableAdd t ka vs) := by
  induction t with
  | nil => simp [tableAdd, keysNodup]
  | cons e rest ih =>
    obtain ⟨ke, ve⟩ := e
    rw [keysNodup, List.map_cons, List.nodup_cons] at h
    by_cases h2 : ke = ka
    · subst h2
      rw [keysNodup, show tableAdd ((ke, ve) :: rest) ke vs = (ke, ve ++ vs) :: rest from by
        simp [tableAdd]]
      simp only [List.map_cons, List.nodup_cons]
      exact h
    · rw [keysNodup, show tableAdd ((ke, ve) :: rest) ka vs = (ke, ve) :: tableAdd rest ka vs
          from by simp [tableAdd, h2]]
      simp only [List.map_cons, List.nodup_cons]
      refine ⟨?_, ih h.2⟩
      rw [mem_keys_tableAdd]
      rintro (hmem | rfl)
      · exact h.1 hmem
      · exact h2 rfl

theorem keysNodup_buildIps_aux (entries : List (String × List String)) (t : Table)
    (h : keysNodup t) :
    keysNodup (entries.foldl (fun acc e => tableAdd acc e.1 e.2) t) := by
  induction entries generalizing t with
  | nil => exact h
  | cons e rest ih => exact ih _ (keysNodup_tableAdd t e.1 e.2 h)

theorem tableGet_of_mem (t : Table) (k : String) (l : List String) (hnd : keysNodup t)
    (hmem : (k, l) ∈ t) : tableGet t k = some l := by
  induction t with
  | nil => cases hmem
  | cons e rest ih =>
    obtain ⟨ke, ve⟩ := e
    rw [keysNodup, List.map_cons, List.nodup_cons] at hnd
    rcases List.mem_cons.mp hmem with heq | hmem2
    · obtain ⟨rfl, rfl⟩ := Prod.mk.injEq .. ▸ heq
      simp [tableGet]
    · have hk : ke ≠ k := by
        rintro rfl
        exact hnd.1 (List.mem_map.mpr ⟨(ke, l), hmem2, rfl⟩)
      simp only [tableGet, if_neg hk]
      exact ih hnd.2 hmem2

/-- C3: for every line whose IP literal parses (canonical form c) and
every name n recorded for it (lower-cased by read_hosts), querying
name_to_ips with any letter case of the name yields a list containing c,
and querying ip_to_names with any spelling of the IP (any literal
canonicalizing to c) yields a list containing n; a valid IP whose
canonical form no parsed line carries, and a name no parsed line carries,
both yield the empty sequence. -/
theorem c3_hosts_table (parseIp : ParseIp) (lines : List String) :
    (∀ c ns n f q qn,
        (c, ns) ∈ read_hosts parseIp lines → n ∈ ns →
        parseIp q = some (f, c) → lowerStr qn = n →
        c ∈ (Hosts.from_lines parseIp lines).name_to_ips qn
        ∧ ∃ l, Hosts.ip_to_names parseIp (Hosts.from_lines parseIp lines) q = Except.ok l
            ∧ n ∈ l)
    ∧ (∀ q f c, parseIp q = some (f, c) →
        (∀ e, e ∈ read_hosts parseIp lines → e.1 ≠ c) →
        Hosts.ip_to_names parseIp (Hosts.from_lines parseIp lines) q = Except.ok [])
    ∧ (∀ qn, (∀ e, e ∈ read_hosts parseIp lines → lowerStr qn ∉ e.2) →
        (Hosts.from_lines parseIp lines).name_to_ips qn = []) := by
  refine ⟨?_, ?_, ?_⟩
  · intro c ns n f q qn hmem hn hq hqn
    have hmemIps : memTable (buildIps (read_hosts parseIp lines)) c n :=
      (memTable_buildIps_aux (read_hosts parseIp lines) [] c n).mpr (Or.inr ⟨ns, hmem, hn⟩)
    obtain ⟨l, hl, hnl⟩ :
        ∃ l, tableGet (buildIps (read_hosts parseIp lines)) c = some l ∧ n ∈ l := by
      unfold memTable at hmemIps
      cases hg : tableGet (buildIps (read_hosts parseIp lines)) c with
      | none => rw [hg] at hmemIps; cases hmemIps
      | some l => rw [hg] at hmemIps; exact ⟨l, rfl, hmemIps⟩
    have hmemNames : memTable (buildNames (buildIps (read_hosts parseIp lines))) n c :=
      (memTable_buildNames_aux (buildIps (read_hosts parseIp lines)) [] n c).mpr
        (Or.inr ⟨(c, l), mem_of_tableGet _ _ _ hl, hnl, rfl⟩)
    constructor
    · show c ∈ (tableGet (Hosts.from_lines parseIp lines).names (lowerStr qn)).getD []
      rw [hqn]
      exact hmemNames
    · refine ⟨(tableGet (Hosts.from_lines parseIp lines).ips c).getD [], ?_, ?_⟩
      · simp [Hosts.ip_to_names, hq]
      · exact hmemIps
  · intro q f c hq hunk
    have hnil2 : (tableGet (Hosts.from_lines parseIp lines).ips c).getD [] = [] := by
      rw [List.eq_nil_iff_forall_not_mem]
      intro x hx
      have hm : memTable (buildIps (read_hosts parseIp lines)) c x := hx
      rcases (memTable_buildIps_aux (read_hosts parseIp lines) [] c x).mp hm with
        hnil | ⟨vs, hmemE, hv⟩
      · exact memTable_nil _ _ hnil
      · exact hunk (c, vs) hmemE rfl
    simp [Hosts.ip_to_names, hq, hnil2]
  · intro qn hunk
    show (tableGet (Hosts.from_lines parseIp lines).names (lowerStr qn)).getD [] = []
    rw [List.eq_nil_iff_forall_not_mem]
    intro x hx
    have hm : memTable (buildNames (buildIps (read_hosts parseIp lines))) (lowerStr qn) x := hx
    rcases (memTable_buildNames_aux (buildIps (read_hosts parseIp lines)) [] (lowerStr qn)
        x).mp hm with hnil | ⟨e, he, hk, rfl⟩
    · exact memTable_nil _ _ hnil
    · obtain ⟨ke, le⟩ := e
      have hget : tableGet (buildIps (read_hosts parseIp lines)) ke = some le :=
        tableGet_of_mem _ _ _
          (keysNodup_buildIps_aux (read_hosts parseIp lines) [] (by simp [keysNodup])) he
      have hmem2 : memTable (buildIps (read_hosts parseIp lines)) ke (lowerStr qn) := by
        unfold memTable
        rw [hget]
        exact hk
      rcases (memTable_buildIps_aux (read_hosts parseIp lines) [] ke (lowerStr qn)).mp
          hmem2 with hnil | ⟨vs, hmemE, hv⟩
      · exact memTable_nil _ _ hnil
      · exact hunk (ke, vs) hmemE hv

/-- C3 witness: a concrete hosts file line with mixed-case names, queried
with a differently-cased name and with the IP literal itself; plus the
empty answers for a valid unknown IP and an unknown name. -/
theorem c3_hosts_table_witness :
    ("192.0.2.1" ∈ (Hosts.from_lines parseIPv4
        ["192.0.2.1 Host.Example extra # comment"]).name_to_ips "HOST.Example"
      ∧ ∃ l, Hosts.ip_to_names parseIPv4
          (Hosts.from_lines parseIPv4 ["192.0.2.1 Host.Example extra # comment"])
          "192.0.2.1" = Except.ok l ∧ "host.example" ∈ l)
    ∧ Hosts.ip_to_names parseIPv4
        (Hosts.from_lines parseIPv4 ["192.0.2.1 Host.Example extra # comment"])
        "192.0.2.9" = Except.ok []
    ∧ (Hosts.from_lines parseIPv4
        ["192.0.2.1 Host.Example extra # comment"]).name_to_ips "unknown.example" = [] :=
  ⟨(c3_hosts_table parseIPv4 ["192.0.2.1 Host.Example extra # comment"]).1
      "192.0.2.1" ["host.example", "extra"] "host.example" 2 "192.0.2.1" "HOST.Example"
      (by decide) (by decide) (by decide) (by decide),
   (c3_hosts_table parseIPv4 ["192.0.2.1 Host.Example extra # comment"]).2.1
      "192.0.2.9" 2 "192.0.2.9" (by decide) (by decide),
   (c3_hosts_table parseIPv4 ["192.0.2.1 Host.Example extra # comment"]).2.2
      "unknown.example" (by decide)⟩

/- ---------------------------------------------------------------------
   Helper lemmas: status-line scanning
--------------------------------------------------------------------- -/

theorem takeWhile_append_cons {α : Type} (p : α → Bool) (l : List α) (x : α) (r : List α)
    (hl : ∀ c ∈ l, p c = true) (hx : p x = false) :
    (l ++ x :: r).takeWhile p = l ∧ (l ++ x :: r).dropWhile p = x :: r := by
  induction l with
  | nil =>
      constructor
      · simp [List.takeWhile_cons, hx]
      · simp [List.dropWhile_cons, hx]
  | cons a as ih =>
      have ha : p a = true := hl a (List.mem_cons_self a as)
      have ih2 := ih (fun c hc => hl c (List.mem_cons_of_mem a hc))
      constructor
      · simp [List.takeWhile_cons, ha, ih2.1]
      · simp [List.dropWhile_cons, ha, ih2.2]

theorem matchStatusLine_complete (tok : List Char) (d1 d2 d3 : Char)
    (reason tail : List Char)
    (htok : tok ≠ []) (hsp : ∀ c ∈ tok, c ≠ ' ')
    (h1 : d1.isDigit = true) (h2 : d2.isDigit = true) (h3 : d3.isDigit = true)
    (hr : ∀ c ∈ reason, c ≠ '\r' ∧ c ≠ '\n')
    (ht : tail = ['\r', '\n'] ∨ tail = ['\n']) :
    matchStatusLine (tok ++ ' ' :: d1 :: d2 :: d3 :: ' ' :: (reason ++ tail)) =
      some (tok, (d1.toNat - 48) * 100 + (d2.toNat - 48) * 10 + (d3.toNat - 48), reason) := by
  have hsp2 : ∀ c ∈ tok, (fun c => c != ' ') c = true := by
    intro c hc
    simp [hsp c hc]
  obtain ⟨hta, htd⟩ := takeWhile_append_cons (fun c => c != ' ') tok ' '
    (d1 :: d2 :: d3 :: ' ' :: (reason ++ tail)) hsp2 (by simp)
  have hreason : ∀ c ∈ reason, notCRLF c = true := by
    intro c hc
    have hc2 := hr c hc
    simp [notCRLF, hc2.1, hc2.2]
  have hte : tok.isEmpty = false := by
    cases tok with
    | nil => exact absurd rfl htok
    | cons a as => rfl
  rcases ht with rfl | rfl
  · obtain ⟨hrt, hrd⟩ := takeWhile_append_cons notCRLF reason '\r' ['\n'] hreason (by decide)
    simp [matchStatusLine, hta, htd, hte, h1, h2, h3, hrt, hrd, statusTailOk]
  · obtain ⟨hrt, hrd⟩ := takeWhile_append_cons notCRLF reason '\n' [] hreason (by decide)
    simp [matchStatusLine, hta, htd, hte, h1, h2, h3, hrt, hrd, statusTailOk]

/-- C6: an empty status line (the peer closed before sending anything)
raises the connection-lost condition, distinct from the parse errors; a
non-empty line the pattern rejects raises the could-not-parse request
error; a matching line whose version token is unrecognized raises the
invalid-version request error; and a well-formed line — nonempty
space-free token, space, three digits, space, CR/LF-free reason, CRLF or
bare LF — yields the version, the three-digit code parsed as an integer,
and the reason. -/
theorem c6_read_status_line :
    read_status_line "" = Except.error ClientError.connectionLost
    ∧ (∀ line, line ≠ "" → matchStatusLine line.toList = none →
        read_status_line line =
          Except.error (ClientError.requestError "could not parse status line"))
    ∧ (∀ line tok code reason, line ≠ "" →
        matchStatusLine line.toList = some (tok, code, reason) →
        HTTPVersion.fromString (String.mk tok) = none →
        read_status_line line =
          Except.error (ClientError.requestError "invalid HTTP version"))
    ∧ (∀ tok d1 d2 d3 reason tail v,
        tok ≠ [] → (∀ c ∈ tok, c ≠ ' ') →
        d1.isDigit = true → d2.isDigit = true → d3.isDigit = true →
        (∀ c ∈ reason, c ≠ '\r' ∧ c ≠ '\n') →
        (tail = ['\r', '\n'] ∨ tail = ['\n']) →
        HTTPVersion.fromString (String.mk tok) = some v →
        read_status_line
            (String.mk (tok ++ ' ' :: d1 :: d2 :: d3 :: ' ' :: (reason ++ tail))) =
          Except.ok (v, (d1.toNat - 48) * 100 + (d2.toNat - 48) * 10 + (d3.toNat - 48),
            String.mk reason)) := by
  refine ⟨by decide, ?_, ?_, ?_⟩
  · intro line hne hm
    have hm2 : matchStatusLine line.data = none := hm
    simp [read_status_line, hne, hm2]
  · intro line tok code reason hne hm hv
    have hm2 : matchStatusLine line.data = some (tok, code, reason) := hm
    simp [read_status_line, hne, hm2, hv]
  · intro tok d1 d2 d3 reason tail v htok hsp h1 h2 h3 hr ht hv
    have hne : String.mk (tok ++ ' ' :: d1 :: d2 :: d3 :: ' ' :: (reason ++ tail)) ≠ "" := by
      intro hc
      have h2 := congrArg String.data hc
      simp at h2
    have hmatch : matchStatusLine
        (String.mk (tok ++ ' ' :: d1 :: d2 :: d3 :: ' ' :: (reason ++ tail))).data =
        some (tok, (d1.toNat - 48) * 100 + (d2.toNat - 48) * 10 + (d3.toNat - 48), reason) :=
      matchStatusLine_complete tok d1 d2 d3 reason tail htok hsp h1 h2 h3 hr ht
    simp [read_status_line, hne, hmatch, hv]

/-- C6 witness: the four behaviours at concrete lines — empty input,
garbage, a good line with an unknown version token, and a good HTTP/1.1
line. -/
theorem c6_read_status_line_witness :
    read_status_line "" = Except.error ClientError.connectionLost
    ∧ read_status_line "XYZ\r\n" =
        Except.error (ClientError.requestError "could not parse status line")
    ∧ read_status_line "FOO/9 200 OK\r\n" =
        Except.error (ClientError.requestError "invalid HTTP version")
    ∧ read_status_line "HTTP/1.1 200 OK\r\n" = Except.ok (HTTP11, 200, "OK") := by
  refine ⟨c6_read_status_line.1,
    c6_read_status_line.2.1 "XYZ\r\n" (by decide) (by decide),
    c6_read_status_line.2.2.1 "FOO/9 200 OK\r\n" "FOO/9".toList 200 "OK".toList
      (by decide) (by decide) (by decide), ?_⟩
  have h := c6_read_status_line.2.2.2 "HTTP/1.1".toList '2' '0' '0' "OK".toList
    ['\r', '\n'] HTTP11 (by decide) (by decide) (by decide) (by decide) (by decide)
    (by decide) (Or.inl rfl) (by decide)
  exact h
